import Mathlib

/- Formal model of the VSCode Android Emulator side-panel extension
   (src/extension.ts): environment-variable path expansion, tool location,
   AVD enumeration, running-emulator correlation, launching, and SDK
   auto-detection.  JavaScript strings are modelled as lists of characters. -/

abbrev Str := List Char

/-- ASCII fragment of the JS whitespace class used by trim and by the
regex class in `_normalizeAvdName`. -/
def isJsSpace (c : Char) : Bool :=
  c = ' ' || c = '\t' || c = '\n' || c = '\r' || c = '\x0b' || c = '\x0c'

/-- JS String.prototype.trim: whitespace removed from both ends. -/
def jsTrim (s : Str) : Str :=
  ((s.dropWhile isJsSpace).reverse.dropWhile isJsSpace).reverse

/-- Word characters of the JS regex class [A-Za-z0-9_]. -/
def isWordChar (c : Char) : Bool :=
  ('a' ≤ c && c ≤ 'z') || ('A' ≤ c && c ≤ 'Z') || ('0' ≤ c && c ≤ '9') || c = '_'

/-- Characters removed by the first replace of `_normalizeAvdName`
(the regex class matching whitespace, underscore and hyphen). -/
def isSepChar (c : Char) : Bool := isJsSpace c || c = '_' || c = '-'

/-- Source `_normalizeAvdName` (extension.ts lines 568-573): trim, lowercase,
remove whitespace/underscore/hyphen, then remove remaining characters outside
the JS word class.  Removing every character of a class is the same as the
source's global replace of runs of that class by the empty string. -/
def normalizeAvdName (s : Str) : Str :=
  (((jsTrim s).map Char.toLower).filter (fun c => !(isSepChar c))).filter isWordChar

/-- JS String.prototype.includes: `n` occurs contiguously in `r`. -/
def isSubstr (n r : Str) : Bool :=
  (List.range (r.length + 1)).any (fun i => n.isPrefixOf (r.drop i))

/-- Contiguous-substring occurrence, as a proposition. -/
def SubOf (n r : Str) : Prop := ∃ a b, r = a ++ n ++ b

/-- One pass of the JS global replace of the pattern
percent, one-or-more non-percent characters, percent
with the named environment value (empty when unset), as in `expandEnvVars`.
Written with explicit fuel so that it is structurally recursive and hence
computable by the kernel; every step consumes at least one character while
consuming exactly one unit of fuel, so any fuel at least the length of the
input realises the source's left-to-right, non-overlapping replace. -/
def expWinFuel (v : Str → Str) : Nat → Str → Str
  | 0, s => s
  | _ + 1, [] => []
  | fuel + 1, c :: rest =>
    if c = '%' then
      let name := rest.takeWhile (fun d => d ≠ '%')
      if name ≠ [] ∧ (rest.drop name.length).head? = some '%' then
        v name ++ expWinFuel v fuel (rest.drop (name.length + 1))
      else c :: expWinFuel v fuel rest
    else c :: expWinFuel v fuel rest

/-- One pass of the JS global replace of dollar-brace or bare-dollar
variable references, as in `expandEnvVars`: after a dollar sign the braced
alternative (one-or-more non-closing-brace characters, then the closing
brace) is tried first, then a bare run of word characters; when neither
alternative matches, the dollar sign is kept and scanning resumes at the
next character, as a regex engine does.  Fuel as in `expWinFuel`. -/
def expUnixFuel (v : Str → Str) : Nat → Str → Str
  | 0, s => s
  | _ + 1, [] => []
  | fuel + 1, c :: rest =>
    if c = '$' then
      if rest.head? = some '\x7b' then
        let name := rest.tail.takeWhile (fun d => d ≠ '\x7d')
        if name ≠ [] ∧ (rest.tail.drop name.length).head? = some '\x7d' then
          v name ++ expUnixFuel v fuel (rest.tail.drop (name.length + 1))
        else c :: expUnixFuel v fuel rest
      else
        let name := rest.takeWhile isWordChar
        if name ≠ [] then v name ++ expUnixFuel v fuel (rest.drop name.length)
        else c :: expUnixFuel v fuel rest
    else c :: expUnixFuel v fuel rest

/-- Split on the posix path separator. -/
def splitSlash (s : Str) : List Str := s.splitOn '/'

/-- One step of node's posix normalizeString: empty and single-dot segments
are dropped, a double-dot segment pops the stack when possible, is dropped
at the root of an absolute path, and is kept when the path is relative and
there is nothing to pop. -/
def normSeg (isAbs : Bool) (stack : List Str) (seg : Str) : List Str :=
  if seg = [] ∨ seg = ['.'] then stack
  else if seg = ['.', '.'] then
    if stack ≠ [] ∧ stack.getLast? ≠ some ['.', '.'] then stack.dropLast
    else if isAbs then stack
    else stack ++ [seg]
  else stack ++ [seg]

/-- node path.posix.normalize. -/
def posixNormalize (p : Str) : Str :=
  if p = [] then ['.']
  else
    let isAbs := p.head? = some '/'
    let trailing := p.getLast? = some '/'
    let stack := (splitSlash p).foldl (normSeg isAbs) []
    let body := List.intercalate ['/'] stack
    if body = [] then
      if isAbs then ['/'] else if trailing then ['.', '/'] else ['.']
    else
      (if isAbs then '/' :: body else body) ++ (if trailing then ['/'] else [])

/-- node path.posix.join: the non-empty parts joined by the separator, then
normalized; with no non-empty part the result is the single-dot path. -/
def posixJoinList (parts : List Str) : Str :=
  let ps := parts.filter (fun p => !p.isEmpty)
  if ps = [] then ['.'] else posixNormalize (List.intercalate ['/'] ps)

inductive Platform where
  | win32
  | darwin
  | linux
  deriving DecidableEq, Repr

/-- node path.win32.join, modelled without separator normalization; this is
adequate for the already-normal segments joined in this codebase. -/
def winJoinList (parts : List Str) : Str :=
  let ps := parts.filter (fun p => !p.isEmpty)
  if ps = [] then ['.'] else List.intercalate ['\\'] ps

/-- The platform-selected path.join, as picked by the node path module. -/
def pathJoinList (pf : Platform) (parts : List Str) : Str :=
  match pf with
  | .win32 => winJoinList parts
  | _ => posixJoinList parts

/-- Ambient collaborators of the engine: the platform tag, the home
directory, the environment-variable accessor and the filesystem
existence probe. -/
structure SysEnv where
  platform : Platform
  homeDir : Str
  getVar : Str → Option Str
  pathExists : Str → Bool

/-- Source `expandEnvVars` (extension.ts lines 51-75): substitute every
percent-delimited variable reference, then every dollar-style reference
(unset or empty variables substitute the empty string, as the source's
or-empty fallback does), then resolve a leading tilde through
path.join(homedir, remainder).  The source's early return on the empty
string is the identity and so needs no separate case. -/
def expandEnvVars (sys : SysEnv) (s : Str) : Str :=
  let v := fun name => (sys.getVar name).getD []
  let r1 := expWinFuel v s.length s
  let r2 := expUnixFuel v r1.length r1
  if r2.head? = some '~' then pathJoinList sys.platform [sys.homeDir, r2.tail] else r2

inductive AvdStatus where
  | stopped
  | running
  deriving DecidableEq, Repr

/-- Source `_getAvailableAvds` status marking (extension.ts lines 511-548):
the normalized-name lookup is tried first, then the direct name lookup, then
the bidirectional substring comparison against each recovered running name;
an AVD matching none of the three stays stopped. -/
def avdStatus (running : List Str) (n : Str) : AvdStatus :=
  if (running.map normalizeAvdName).contains (normalizeAvdName n) then .running
  else if running.contains n then .running
  else if running.any (fun r => isSubstr n r || isSubstr r n) then .running
  else .stopped

/-- The three configuration-store values the engine reads. -/
structure ExtConfig where
  sdkPath : Str
  emulatorPath : Str
  adbPath : Str

structure AndroidToolPaths where
  emulator : Str
  adb : Str
  avdHome : Str
  deriving DecidableEq, Repr

/-- The fixed AVD-home probe path, path.join(homedir, '.android', 'avd'). -/
def avdHomeCandidate (sys : SysEnv) : Str :=
  pathJoinList sys.platform [sys.homeDir, (".android").toList, ("avd").toList]

/-- Source `_findAndroidTools` (extension.ts lines 324-438): expand the three
configured values; record the AVD home directory when it exists; take a
configured override verbatim, appending an advisory error when it does not
exist; otherwise probe the SDK-relative candidate locations (with the extra
suffix-free emulator check on win32); fall back to the bare command names;
finally, an existing AVD home with no configured SDK path overwrites the
error with the configure-the-SDK advisory. -/
def findAndroidTools (sys : SysEnv) (cfg : ExtConfig) : AndroidToolPaths × Str :=
  let sdkPath := expandEnvVars sys cfg.sdkPath
  let cfgEmu := expandEnvVars sys cfg.emulatorPath
  let cfgAdb := expandEnvVars sys cfg.adbPath
  let avdHome := if sys.pathExists (avdHomeCandidate sys) then avdHomeCandidate sys else []
  let error0 : Str :=
    if cfgEmu ≠ [] ∧ sys.pathExists cfgEmu = false then
      ("Configured emulator path does not exist: ").toList ++ cfgEmu
    else []
  let error1 : Str :=
    if cfgAdb ≠ [] ∧ sys.pathExists cfgAdb = false then
      (if error0 ≠ [] then error0 ++ ("\n").toList else []) ++
        ("Configured adb path does not exist: ").toList ++ cfgAdb
    else error0
  let exeSuffix : Str := if sys.platform = .win32 then (".exe").toList else []
  let emulatorPath1 :=
    if sdkPath ≠ [] ∧ cfgEmu = [] then
      let candidates := [
        pathJoinList sys.platform [sdkPath, ("emulator").toList, ("emulator").toList ++ exeSuffix],
        pathJoinList sys.platform [sdkPath, ("tools").toList, ("emulator").toList ++ exeSuffix],
        pathJoinList sys.platform
          [sdkPath, ("tools").toList, ("emulator").toList, ("emulator").toList ++ exeSuffix],
        pathJoinList sys.platform
          [sdkPath, ("tools").toList, ("bin").toList, ("emulator").toList ++ exeSuffix]]
      match candidates.find? (fun c => sys.pathExists c) with
      | some c => c
      | none =>
        if sys.platform = .win32 ∧
            sys.pathExists
              (pathJoinList sys.platform [sdkPath, ("emulator").toList, ("emulator").toList]) = true
        then pathJoinList sys.platform [sdkPath, ("emulator").toList, ("emulator").toList]
        else []
    else cfgEmu
  let adbPath1 :=
    if sdkPath ≠ [] ∧ cfgAdb = [] then
      if sys.pathExists
          (pathJoinList sys.platform [sdkPath, ("platform-tools").toList, ("adb").toList ++ exeSuffix])
      then pathJoinList sys.platform [sdkPath, ("platform-tools").toList, ("adb").toList ++ exeSuffix]
      else []
    else cfgAdb
  let emulatorFinal := if emulatorPath1 = [] then ("emulator").toList else emulatorPath1
  let adbFinal := if adbPath1 = [] then ("adb").toList else adbPath1
  let errorFinal :=
    if avdHome ≠ [] ∧ sdkPath = [] then
      ("Found Android AVDs but the Android SDK path is not configured. Please click \"Auto-Detect SDK\" or configure the SDK path manually.").toList
    else error1
  (⟨emulatorFinal, adbFinal, avdHome⟩, errorFinal)

/-- Per-call external-process outcomes consumed by enumeration and
correlation.  The adb device listing and the emulator list flag are given as
raw standard output (none models a failed invocation); for the per-instance
name-recovery strategies whose value comes from parsing further external
output (process listings, the telnet console), the parsed capture per
emulator id or port is supplied directly, with none for a failed, empty or
unmatched invocation — the chain around them follows the source. -/
structure ListEnv where
  sys : SysEnv
  cfg : ExtConfig
  listAvdOutput : Option Str
  avdHomeFiles : Option (List Str)
  devicesOutput : Option Str
  emuAvdNameOut : Str → Option Str
  getpropOut : Str → Option Str
  procListName : Str → Option Str
  psName : Str → Option Str
  telnetExists : Bool
  telnetCaptured : Str → Option Str

/-- Source parse of one line of adb devices output (extension.ts line 588):
the line must start with the emulator marker, one-or-more digits, then
one-or-more whitespace characters, then the device-ready word; the captured
instance id is the marker with its digits. -/
def parseDeviceLine (line : Str) : Option Str :=
  if ("emulator-").toList.isPrefixOf line then
    let rest := line.drop 9
    let digits := rest.takeWhile Char.isDigit
    if digits ≠ [] then
      let after := rest.drop digits.length
      let sp := after.takeWhile isJsSpace
      if sp ≠ [] ∧ ("device").toList.isPrefixOf (after.drop sp.length) then
        some (("emulator-").toList ++ digits)
      else none
    else none
  else none

/-- A successful external invocation whose trimmed output is nonempty, as in
the source's truthiness checks on stdout. -/
def trimmedNonempty (o : Option Str) : Option Str :=
  match o with
  | some out => if jsTrim out = [] then none else some (jsTrim out)
  | none => none

/-- Source `_getRunningEmulators` per-instance recovery chain (extension.ts
lines 601-731), in strict order: the emu avd name query, the getprop query,
the platform process listing matched by port, and last the telnet console
whose parsed reply is accepted only when nonempty and not the bare OK
acknowledgement; each strategy's failure falls through to the next. -/
def recoverAvdName (env : ListEnv) (emulatorId : Str) : Option Str :=
  let port := (emulatorId.splitOn '-').getD 1 []
  match trimmedNonempty (env.emuAvdNameOut emulatorId) with
  | some nm => some nm
  | none =>
    match trimmedNonempty (env.getpropOut emulatorId) with
    | some nm => some nm
    | none =>
      let viaProc :=
        if env.sys.platform = .win32 then env.procListName port else env.psName port
      match viaProc with
      | some nm => some nm
      | none =>
        if env.sys.platform = .win32 ∨ env.telnetExists = true then
          match env.telnetCaptured port with
          | some raw =>
            let nm := jsTrim raw
            if nm ≠ [] ∧ nm ≠ ("OK").toList then some nm else none
          | none => none
        else none

/-- Source `_getRunningEmulators` (extension.ts lines 575-743): a failed adb
devices invocation yields the empty map; otherwise each parsed emulator id
is associated with its recovered AVD name, ids with no recoverable name
being left out. -/
def getRunningEmulators (env : ListEnv) : List (Str × Str) :=
  match env.devicesOutput with
  | none => []
  | some out =>
    let ids := (out.splitOn '\n').filterMap parseDeviceLine
    ids.foldl
      (fun acc eid =>
        match recoverAvdName env eid with
        | some nm => acc ++ [(nm, eid)]
        | none => acc) []

/-- JS String.prototype.replace with a plain-string pattern: only the first
occurrence is replaced. -/
def replaceFirst (s pat rep : Str) : Str :=
  match s with
  | [] => if pat.isPrefixOf [] then rep else []
  | c :: rest =>
    if pat.isPrefixOf (c :: rest) then rep ++ (c :: rest).drop pat.length
    else c :: replaceFirst rest pat rep

/-- Source `_getAvailableAvds` methods 1 and 2 (extension.ts lines 448-489):
the primary list flag output split into trimmed nonempty lines; when that
yields nothing and an AVD home directory is known, the directory's ini files
with the extension's first occurrence removed, minus the reserved config
name. -/
def enumeratedAvdNames (env : ListEnv) (paths : AndroidToolPaths) : List Str :=
  let primary :=
    match env.listAvdOutput with
    | some out =>
      if jsTrim out ≠ [] then ((out.splitOn '\n').map jsTrim).filter (fun l => !l.isEmpty)
      else []
    | none => []
  if primary ≠ [] then primary
  else if paths.avdHome ≠ [] then
    match env.avdHomeFiles with
    | some files =>
      (((files.filter (fun f => (".ini").toList.isSuffixOf f)).map
          (fun f => replaceFirst f ((".ini").toList) [])).filter
        (fun nm => !(nm == ("config").toList)))
    | none => []
  else []

structure AvdInfo where
  name : Str
  status : AvdStatus
  deriving DecidableEq, Repr

/-- Source `_getAvailableAvds` (extension.ts lines 440-565): a locator error
aborts with the empty list and that error; an empty enumeration returns the
no-devices advisory; otherwise every enumerated name is paired with the
status computed against the recovered running names. -/
def getAvailableAvds (env : ListEnv) : List AvdInfo × Option Str :=
  let r := findAndroidTools env.sys env.cfg
  if r.2 ≠ [] then ([], some r.2)
  else
    let names := enumeratedAvdNames env r.1
    if names = [] then
      ([], some (("No Android virtual devices found. Create some using Android Studio.").toList))
    else
      let runningNames := (getRunningEmulators env).map Prod.fst
      (names.map (fun n => ⟨n, avdStatus runningNames n⟩), none)

/-- Outcome of a launch request: either aborted with a user-facing error
before any process creation, or the primary spawn was issued with the given
full command line. -/
inductive LaunchAction where
  | abortError (msg : Str)
  | spawnCmd (cmd : Str)
  deriving DecidableEq, Repr

def isSpawn (a : LaunchAction) : Bool :=
  match a with
  | .spawnCmd _ => true
  | .abortError _ => false

/-- Whether the action spawned a command containing `s` contiguously. -/
def cmdMentions (a : LaunchAction) (s : Str) : Bool :=
  match a with
  | .spawnCmd c => isSubstr s c
  | .abortError _ => false

/-- Source `_launchAvd` (extension.ts lines 759-848), up to the primary
spawn: a locator error aborts with a message; on win32 the configuration's
SDK path is re-read and expanded, an empty one aborts, otherwise the spawned
command invokes emulator.exe under that SDK path (not the locator's resolved
emulator); on darwin and linux the spawned command wraps the locator's
resolved emulator with the avd flag in a terminal wrapper. -/
def launchAvd (sys : SysEnv) (cfg : ExtConfig) (avdName : Str) : LaunchAction :=
  let r := findAndroidTools sys cfg
  if r.2 ≠ [] then .abortError (("Failed to launch emulator: ").toList ++ r.2)
  else if sys.platform = .win32 then
    let sdkPath := expandEnvVars sys cfg.sdkPath
    if sdkPath = [] then
      .abortError (("Unable to launch emulator: Android SDK path not configured. Please use \"Auto-Detect SDK\" or configure the SDK path manually.").toList)
    else
      let emulatorExe :=
        pathJoinList .win32 [sdkPath, ("emulator").toList, ("emulator.exe").toList]
      .spawnCmd (("\"").toList ++ emulatorExe ++ ("\" -avd \"").toList ++ avdName ++ ("\"").toList)
  else if sys.platform = .darwin then
    .spawnCmd ((("osascript -e \x27tell application \"Terminal\" to do script \"\\\"").toList)
      ++ r.1.emulator ++ (("\\\" -avd ").toList) ++ avdName ++ (("\"\x27").toList))
  else
    .spawnCmd ((("x-terminal-emulator -e \"\\\"").toList)
      ++ r.1.emulator ++ (("\\\" -avd ").toList) ++ avdName ++ (("\"").toList))

/-- Collaborator outcomes consumed by SDK auto-detection: the ambient system,
the registry capture for the Android Studio install path (already matched
out of the reg query output; none when the key is missing), and whether the
configuration-store update succeeds. -/
structure DetectEnv where
  sys : SysEnv
  regStudioPath : Option Str
  configUpdateOk : Bool

/-- Source `_isValidSdkLocation` (extension.ts lines 288-309). -/
def isValidSdkLocation (sys : SysEnv) (sdkPath : Str) : Bool :=
  let platformTools := pathJoinList sys.platform [sdkPath, ("platform-tools").toList]
  let adbPath := pathJoinList sys.platform
    [platformTools, (if sys.platform = .win32 then ("adb.exe").toList else ("adb").toList)]
  let hasAdb := sys.pathExists adbPath
  let hasToolsDir := sys.pathExists (pathJoinList sys.platform [sdkPath, ("tools").toList])
  let hasPlatformToolsDir := sys.pathExists platformTools
  let hasEmulatorDir := sys.pathExists (pathJoinList sys.platform [sdkPath, ("emulator").toList])
  hasAdb || (hasPlatformToolsDir && (hasToolsDir || hasEmulatorDir))

/-- Source `_configureSdkPath` (extension.ts lines 311-322): the discovered
root is returned either way; success records whether the configuration
update went through (the catch branch keeps the path with success false). -/
def configureSdkPath (updateOk : Bool) (sdkPath : Str) : Option Str × Bool :=
  if updateOk then (some sdkPath, true) else (some sdkPath, false)

/-- node path.win32.dirname, modelled for plain separator-joined paths (the
drive-root special cases are not exercised by the candidate lists). -/
def winDirname (s : Str) : Str :=
  let parts := s.splitOn '\\'
  if parts.length ≤ 1 then ['.'] else List.intercalate ['\\'] (parts.dropLast)

/-- An environment variable that is unset or empty falls back to a default,
as the source's or-default reads of the Program Files variables. -/
def varOrDefault (sys : SysEnv) (name dflt : Str) : Str :=
  match sys.getVar name with
  | some v => if v = [] then dflt else v
  | none => dflt

/-- Source `_autoDetectSdkPaths` candidate list (extension.ts lines 149-228):
the win32 list starts from the fixed locations, appends the SDK directories
derived from each existing Android Studio install path (registry capture
included), then the two user-directory locations; darwin and linux use their
fixed lists. -/
def possibleLocations (env : DetectEnv) : List Str :=
  match env.sys.platform with
  | .win32 =>
    let pf := varOrDefault env.sys (("ProgramFiles").toList) (("C:\\Program Files").toList)
    let pfx86 := varOrDefault env.sys (("ProgramFiles(x86)").toList)
      (("C:\\Program Files (x86)").toList)
    let studioPaths :=
      [pathJoinList .win32 [pf, ("Android").toList, ("Android Studio").toList],
       pathJoinList .win32 [pfx86, ("Android").toList, ("Android Studio").toList],
       pathJoinList .win32 [pf, ("Android Studio").toList],
       pathJoinList .win32 [pfx86, ("Android Studio").toList]] ++
      (match env.regStudioPath with
       | some p => [jsTrim p]
       | none => [])
    let studioSdk := studioPaths.foldl
      (fun acc sp =>
        if env.sys.pathExists sp then
          acc ++ [pathJoinList .win32 [sp, ("Sdk").toList],
                  pathJoinList .win32 [winDirname sp, ("Sdk").toList],
                  pathJoinList .win32 [winDirname (winDirname sp), ("Sdk").toList]]
        else acc) []
    [("%LOCALAPPDATA%\\Android\\Sdk").toList, ("%ANDROID_HOME%").toList,
     ("%ANDROID_SDK_ROOT%").toList, ("C:\\Android\\Sdk").toList] ++ studioSdk ++
    [pathJoinList .win32 [env.sys.homeDir, (".android").toList, ("sdk").toList],
     pathJoinList .win32
       [env.sys.homeDir, ("AppData").toList, ("Local").toList, ("Android").toList, ("sdk").toList]]
  | .darwin =>
    [("~/Library/Android/sdk").toList, ("$ANDROID_HOME").toList, ("$ANDROID_SDK_ROOT").toList]
  | .linux =>
    [("~/Android/Sdk").toList, ("$ANDROID_HOME").toList, ("$ANDROID_SDK_ROOT").toList,
     ("/opt/android-sdk").toList]

/-- Source candidate loop (extension.ts lines 245-260): the first location
whose expansion exists and validates as an SDK root. -/
def firstValidLoc (env : DetectEnv) : List Str → Option Str
  | [] => none
  | loc :: rest =>
    let expanded := expandEnvVars env.sys loc
    if env.sys.pathExists expanded && isValidSdkLocation env.sys expanded then some expanded
    else firstValidLoc env rest

/-- Source `_autoDetectSdkPaths` (extension.ts lines 146-286): the two SDK
environment variables are accepted on bare existence; then the candidate
locations are tried with the validity predicate; then, when the AVD home
directory exists and the platform is win32, the default user SDK directory
gets one more validity check; otherwise detection reports failure with no
path. -/
def autoDetectSdkPaths (env : DetectEnv) : Option Str × Bool :=
  let ah := (env.sys.getVar (("ANDROID_HOME").toList)).getD []
  let asr := (env.sys.getVar (("ANDROID_SDK_ROOT").toList)).getD []
  if ah ≠ [] ∧ env.sys.pathExists ah = true then configureSdkPath env.configUpdateOk ah
  else if asr ≠ [] ∧ env.sys.pathExists asr = true then configureSdkPath env.configUpdateOk asr
  else
    match firstValidLoc env (possibleLocations env) with
    | some p => configureSdkPath env.configUpdateOk p
    | none =>
      if env.sys.pathExists (avdHomeCandidate env.sys) then
        if env.sys.platform = .win32 then
          let androidAppData := pathJoinList .win32
            [env.sys.homeDir, ("AppData").toList, ("Local").toList, ("Android").toList]
          if env.sys.pathExists androidAppData then
            let possibleSdkDir := pathJoinList .win32 [androidAppData, ("Sdk").toList]
            if env.sys.pathExists possibleSdkDir ∧ isValidSdkLocation env.sys possibleSdkDir = true
            then configureSdkPath env.configUpdateOk possibleSdkDir
            else (none, false)
          else (none, false)
        else (none, false)
      else (none, false)

/-- A percent-delimited variable token occurs in the string: somewhere a
percent sign is followed by a nonempty run of non-percent characters and a
closing percent sign. -/
def PercentTok (s : Str) : Prop :=
  ∃ a nm b, s = a ++ '%' :: (nm ++ '%' :: b) ∧ nm ≠ [] ∧ '%' ∉ nm

/-- A dollar-style variable token occurs in the string: either a braced
reference (dollar, open brace, nonempty brace-free name, close brace) or a
bare reference (dollar immediately followed by a word character). -/
def DollarTok (s : Str) : Prop :=
  (∃ a nm b, s = a ++ '$' :: '\x7b' :: (nm ++ '\x7d' :: b) ∧ nm ≠ [] ∧ '\x7d' ∉ nm) ∨
  (∃ a c b, s = a ++ '$' :: c :: b ∧ isWordChar c = true)

/-- A bare system: linux, a fixed home, no variables set, nothing on disk. -/
def sysNil : SysEnv :=
  { platform := .linux, homeDir := ("/home/u").toList,
    getVar := fun _ => none, pathExists := fun _ => false }

def cfgNil : ExtConfig := ⟨[], [], []⟩

/-- A query-cycle environment in which every external probe fails. -/
def listEnvNil : ListEnv :=
  { sys := sysNil, cfg := cfgNil, listAvdOutput := none, avdHomeFiles := none,
    devicesOutput := none, emuAvdNameOut := fun _ => none, getpropOut := fun _ => none,
    procListName := fun _ => none, psName := fun _ => none, telnetExists := false,
    telnetCaptured := fun _ => none }

/-- A configured adb override that does not exist, while the primary
enumeration strategy would report one AVD. -/
def envC2 : ListEnv :=
  { listEnvNil with
    cfg := { cfgNil with adbPath := ("/adb").toList },
    listAvdOutput := some (("Pixel_6\n").toList) }

/-- Primary enumeration output repeating the same AVD name. -/
def envC3 : ListEnv := { listEnvNil with listAvdOutput := some (("foo\nfoo").toList) }

/-- Primary enumeration output with two distinct AVD names. -/
def envC3w : ListEnv := { listEnvNil with listAvdOutput := some (("A\nB").toList) }

/-- A system whose only existing path is the default AVD home directory. -/
def sysC4 : SysEnv :=
  { platform := .linux, homeDir := ("/home/u").toList, getVar := fun _ => none,
    pathExists := fun p => p == ("/home/u/.android/avd").toList }

/-- An SDK path is configured, the primary list flag prints nothing, and the
AVD home directory holds exactly foo.ini, bar.ini and config.ini. -/
def envC4 : ListEnv :=
  { listEnvNil with
    sys := sysC4,
    cfg := { cfgNil with sdkPath := ("/sdk").toList },
    listAvdOutput := some [],
    avdHomeFiles := some [("foo.ini").toList, ("bar.ini").toList, ("config.ini").toList] }

/-- One AVD enumerated while every adb probe fails. -/
def envC6 : ListEnv := { listEnvNil with listAvdOutput := some (("A").toList) }

/-- A win32 system on which the configured emulator override exists. -/
def sysC7 : SysEnv :=
  { platform := .win32, homeDir := ("C:\\Users\\u").toList, getVar := fun _ => none,
    pathExists := fun p => p == ("D:\\custom\\emu.exe").toList }

/-- An SDK path plus an emulator override pointing elsewhere. -/
def cfgC7 : ExtConfig :=
  { sdkPath := ("C:\\Sdk").toList, emulatorPath := ("D:\\custom\\emu.exe").toList,
    adbPath := [] }

/-- A bare darwin system. -/
def sysC7w : SysEnv :=
  { platform := .darwin, homeDir := ("/h").toList, getVar := fun _ => none,
    pathExists := fun _ => false }

/-- A linux system with home /h and the single variable VAR set to foo. -/
def sysC8 : SysEnv :=
  { platform := .linux, homeDir := ("/h").toList,
    getVar := fun n => if n = ("VAR").toList then some (("foo").toList) else none,
    pathExists := fun _ => false }

/-- ANDROID_HOME names an existing directory, and persisting the discovered
root into the configuration store fails. -/
def sysC10 : SysEnv :=
  { platform := .linux, homeDir := ("/home/u").toList,
    getVar := fun n => if n = ("ANDROID_HOME").toList then some (("/sdk").toList) else none,
    pathExists := fun p => p == ("/sdk").toList }

def envC10 : DetectEnv := { sys := sysC10, regStudioPath := none, configUpdateOk := false }

lemma contains_true_iff (l : List Str) (a : Str) : l.contains a = true ↔ a ∈ l :=
  List.elem_iff

lemma isPrefixOf_true_iff (a b : Str) : a.isPrefixOf b = true ↔ ∃ t, b = a ++ t := by
  rw [ List.isPrefixOf_iff_prefix]
  constructor
  · rintro ⟨t, ht⟩
    exact ⟨t, ht.symm⟩
  · rintro ⟨t, ht⟩
    exact ⟨t, ht.symm⟩

lemma isSubstr_true_iff (n r : Str) : isSubstr n r = true ↔ SubOf n r := by
  unfold isSubstr SubOf
  rw [List.any_eq_true]
  constructor
  · rintro ⟨i, -, hp⟩
    rcases (isPrefixOf_true_iff n (r.drop i)).1 hp with ⟨t, ht⟩
    refine ⟨r.take i, t, ?_⟩
    rw [List.append_assoc, ← ht, List.take_append_drop]
  · rintro ⟨a, b, hb⟩
    refine ⟨a.length, ?_, ?_⟩
    · rw [List.mem_range, hb]
      simp only [List.append_assoc, List.length_append]
      omega
    · rw [(isPrefixOf_true_iff n (r.drop a.length))]
      refine ⟨b, ?_⟩
      rw [hb, List.append_assoc, List.drop_left]

lemma isSubstr_mid (m a b : Str) : isSubstr m (a ++ m ++ b) = true :=
  (isSubstr_true_iff m (a ++ m ++ b)).2 ⟨a, b, rfl⟩

lemma avdStatus_eq_running_iff (running : List Str) (n : Str) :
    avdStatus running n = .running ↔
      ((∃ r ∈ running, r = n) ∨
       (∃ r ∈ running, normalizeAvdName r = normalizeAvdName n) ∨
       (∃ r ∈ running, SubOf n r ∨ SubOf r n)) := by
  unfold avdStatus
  split
  · rename_i h
    rw [contains_true_iff, List.mem_map] at h
    rcases h with ⟨r, hr, hnr⟩
    simp only [true_iff]
    exact Or.inr (Or.inl ⟨r, hr, hnr⟩)
  · rename_i h1
    split
    · rename_i h2
      rw [contains_true_iff] at h2
      simp only [true_iff]
      exact Or.inl ⟨n, h2, rfl⟩
    · rename_i h2
      split
      · rename_i h3
        rw [List.any_eq_true] at h3
        rcases h3 with ⟨r, hr, hor⟩
        rcases Bool.or_eq_true_iff.mp hor with h | h
        · simp only [true_iff]
          exact Or.inr (Or.inr ⟨r, hr, Or.inl ((isSubstr_true_iff n r).1 h)⟩)
        · simp only [true_iff]
          exact Or.inr (Or.inr ⟨r, hr, Or.inr ((isSubstr_true_iff r n).1 h)⟩)
      · rename_i h3
        rw [contains_true_iff] at h2
        constructor
        · intro hfalse
          cases hfalse
        · rintro (⟨r, hr, rfl⟩ | ⟨r, hr, hnr⟩ | ⟨r, hr, hsub⟩)
          · exact absurd hr h2
          · refine absurd ?_ h1
            rw [contains_true_iff, List.mem_map]
            exact ⟨r, hr, hnr⟩
          · refine absurd ?_ h3
            rw [List.any_eq_true]
            refine ⟨r, hr, ?_⟩
            rw [Bool.or_eq_true_iff]
            rcases hsub with h | h
            · exact Or.inl ((isSubstr_true_iff n r).2 h)
            · exact Or.inr ((isSubstr_true_iff r n).2 h)

/-- C1: a definition is marked Running exactly when its name equals a
recovered running name, or its normalized form equals a recovered name's
normalized form, or one of the two names occurs contiguously in the other;
the source tries the substring comparison only in the branch where the
normalized and exact lookups have both failed, so the disjunction is the
whole marking rule. -/
theorem c1_reconciliation_iff (running : List Str) (n : Str) :
    avdStatus running n = .running ↔
      ((∃ r ∈ running, r = n) ∨
       (∃ r ∈ running, normalizeAvdName r = normalizeAvdName n) ∨
       (∃ r ∈ running, SubOf n r ∨ SubOf r n)) :=
  avdStatus_eq_running_iff running n

lemma getAvailableAvds_err (env : ListEnv) (h : (findAndroidTools env.sys env.cfg).2 ≠ []) :
    getAvailableAvds env = ([], some ((findAndroidTools env.sys env.cfg).2)) := by
  simp [getAvailableAvds, h]

lemma getAvailableAvds_fst (env : ListEnv) (h : (findAndroidTools env.sys env.cfg).2 = []) :
    (getAvailableAvds env).1 =
      (enumeratedAvdNames env (findAndroidTools env.sys env.cfg).1).map
        (fun n => ⟨n, avdStatus ((getRunningEmulators env).map Prod.fst) n⟩) := by
  simp only [getAvailableAvds, h, ne_eq, not_true_eq_false, if_false]
  split
  · rename_i hnames
    rw [hnames]
    rfl
  · rfl

lemma getAvailableAvds_snd_none (env : ListEnv) (h : (findAndroidTools env.sys env.cfg).2 = [])
    (h2 : enumeratedAvdNames env (findAndroidTools env.sys env.cfg).1 ≠ []) :
    (getAvailableAvds env).2 = none := by
  simp only [getAvailableAvds, h, ne_eq, not_true_eq_false, if_false]
  split
  · rename_i hnames
    exact absurd hnames h2
  · rfl

/-- C2 counterexample: with a configured adb override that does not exist,
the locator returns an advisory error and `getAvailableAvds` returns the
empty list carrying exactly that error, even though the primary enumeration
strategy would have yielded a device — refuting the claim that an advisory
locator error never aborts enumeration. -/
theorem c2_counterexample :
    (findAndroidTools envC2.sys envC2.cfg).2 ≠ [] ∧
    getAvailableAvds envC2 = ([], some ((findAndroidTools envC2.sys envC2.cfg).2)) ∧
    enumeratedAvdNames envC2 (findAndroidTools envC2.sys envC2.cfg).1 ≠ [] := by
  decide

/-- C2 (amended): when the locator reports a nonempty advisory error, the
list operation returns the empty definitions list together with exactly that
error, without evaluating the primary strategy or the definitions-directory
fallback. -/
theorem c2_amended (env : ListEnv) (h : (findAndroidTools env.sys env.cfg).2 ≠ []) :
    getAvailableAvds env = ([], some ((findAndroidTools env.sys env.cfg).2)) :=
  getAvailableAvds_err env h

theorem c2_amended_witness :
    (findAndroidTools envC2.sys envC2.cfg).2 ≠ [] ∧
    getAvailableAvds envC2 = ([], some ((findAndroidTools envC2.sys envC2.cfg).2)) :=
  ⟨by decide, c2_amended envC2 (by decide)⟩

/-- C3 counterexample: when the primary enumeration output repeats a name,
the result carries one entry per enumerated line, so the same name appears
twice — refuting the unconditional no-duplicate-names invariant. -/
theorem c3_counterexample :
    (getAvailableAvds envC3).1.map AvdInfo.name = [("foo").toList, ("foo").toList] ∧
    ¬ ((getAvailableAvds envC3).1.map AvdInfo.name).Nodup := by
  decide

/-- C3 (amended): with no locator error, the result carries exactly one
entry per enumerated definition in order; the names are duplicate-free
whenever the enumerated names are; and a definition matching no recovered
running name — neither exactly, nor after normalization, nor by the
bidirectional substring comparison — has status stopped. -/
theorem c3_amended (env : ListEnv) (h : (findAndroidTools env.sys env.cfg).2 = []) :
    ((getAvailableAvds env).1.map AvdInfo.name
        = enumeratedAvdNames env (findAndroidTools env.sys env.cfg).1) ∧
    ((enumeratedAvdNames env (findAndroidTools env.sys env.cfg).1).Nodup →
      ((getAvailableAvds env).1.map AvdInfo.name).Nodup) ∧
    (∀ a ∈ (getAvailableAvds env).1,
      (¬ ∃ r ∈ (getRunningEmulators env).map Prod.fst,
          r = a.name ∨ normalizeAvdName r = normalizeAvdName a.name ∨
          SubOf a.name r ∨ SubOf r a.name) →
      a.status = .stopped) := by
  have hf := getAvailableAvds_fst env h
  have hnames : (getAvailableAvds env).1.map AvdInfo.name
      = enumeratedAvdNames env (findAndroidTools env.sys env.cfg).1 := by
    rw [hf, List.map_map]
    simp [Function.comp_def]
  refine ⟨hnames, ?_, ?_⟩
  · intro hnd
    rw [hnames]
    exact hnd
  · intro a ha hno
    rw [hf] at ha
    rcases List.mem_map.1 ha with ⟨n, hn, rfl⟩
    set run := (getRunningEmulators env).map Prod.fst with hrun
    show avdStatus run n = .stopped
    cases hst : avdStatus run n with
    | stopped => rfl
    | running =>
      exfalso
      rcases (avdStatus_eq_running_iff run n).1 hst with ⟨r, hr, he⟩ | ⟨r, hr, he⟩ | ⟨r, hr, he⟩
      · exact hno ⟨r, hr, Or.inl he⟩
      · exact hno ⟨r, hr, Or.inr (Or.inl he)⟩
      · rcases he with he | he
        · exact hno ⟨r, hr, Or.inr (Or.inr (Or.inl he))⟩
        · exact hno ⟨r, hr, Or.inr (Or.inr (Or.inr he))⟩

theorem c3_amended_witness :
    ((getAvailableAvds envC3w).1.map AvdInfo.name).Nodup :=
  (c3_amended envC3w (by decide)).2.1 (by decide)

/-- C4: when the primary list flag prints nothing but the known definitions
directory contains exactly foo.ini, bar.ini and config.ini, the result
names are foo and bar — the extension is stripped and the reserved config
name is excluded. -/
theorem c4_fallback (env : ListEnv)
    (h1 : (findAndroidTools env.sys env.cfg).2 = [])
    (h2 : env.listAvdOutput = some [])
    (h3 : (findAndroidTools env.sys env.cfg).1.avdHome ≠ [])
    (h4 : env.avdHomeFiles
        = some [("foo.ini").toList, ("bar.ini").toList, ("config.ini").toList]) :
    (getAvailableAvds env).1.map AvdInfo.name = [("foo").toList, ("bar").toList] := by
  have hf := getAvailableAvds_fst env h1
  have hnames : enumeratedAvdNames env (findAndroidTools env.sys env.cfg).1
      = [("foo").toList, ("bar").toList] := by
    simp only [enumeratedAvdNames, h2, h4]
    rw [if_neg (by decide), if_pos h3]
    decide
  rw [hf, List.map_map, hnames]
  rfl

theorem c4_fallback_witness :
    (getAvailableAvds envC4).1.map AvdInfo.name = [("foo").toList, ("bar").toList] :=
  c4_fallback envC4 (by decide) (by decide) (by decide) (by decide)

lemma getAvailableAvds_empty (env : ListEnv)
    (h : (findAndroidTools env.sys env.cfg).2 = [])
    (h2 : enumeratedAvdNames env (findAndroidTools env.sys env.cfg).1 = []) :
    getAvailableAvds env
      = ([], some (("No Android virtual devices found. Create some using Android Studio.").toList)) := by
  simp only [getAvailableAvds, h, ne_eq, not_true_eq_false, if_false]
  rw [if_pos h2]

/-- C5: with no SDK root and no overrides configured, the definitions
directory absent and the primary enumeration tool absent, the result is the
empty list with an error beginning with the no-devices text. -/
theorem c5_no_devices (env : ListEnv)
    (h1 : env.cfg.sdkPath = []) (h2 : env.cfg.emulatorPath = [])
    (h3 : env.cfg.adbPath = [])
    (h4 : env.sys.pathExists (avdHomeCandidate env.sys) = false)
    (h5 : env.listAvdOutput = none) :
    (getAvailableAvds env).1 = [] ∧
    (getAvailableAvds env).2
      = some (("No Android virtual devices found. Create some using Android Studio.").toList) ∧
    ("No Android virtual devices found").toList.isPrefixOf
      (("No Android virtual devices found. Create some using Android Studio.").toList) = true := by
  have hexp : expandEnvVars env.sys [] = [] := rfl
  have hta : findAndroidTools env.sys env.cfg
      = (⟨("emulator").toList, ("adb").toList, []⟩, []) := by
    simp [findAndroidTools, h1, h2, h3, h4, hexp]
  have herr : (findAndroidTools env.sys env.cfg).2 = [] := by rw [hta]
  have h6 : enumeratedAvdNames env (findAndroidTools env.sys env.cfg).1 = [] := by
    rw [hta]
    simp [enumeratedAvdNames, h5]
  rw [getAvailableAvds_empty env herr h6]
  exact ⟨rfl, rfl, by decide⟩

theorem c5_no_devices_witness :
    (getAvailableAvds listEnvNil).1 = [] ∧
    (getAvailableAvds listEnvNil).2
      = some (("No Android virtual devices found. Create some using Android Studio.").toList) ∧
    ("No Android virtual devices found").toList.isPrefixOf
      (("No Android virtual devices found. Create some using Android Studio.").toList) = true :=
  c5_no_devices listEnvNil (by decide) (by decide) (by decide) (by decide) (by decide)

/-- C6: when the adb device-listing invocation fails, the recovered running
set is empty, every definition in the result is stopped, and the call
reports no error (given that enumeration found definitions, which is the
only case in which the adb listing is reached). -/
theorem c6_adb_failure (env : ListEnv)
    (h1 : env.devicesOutput = none)
    (h2 : (findAndroidTools env.sys env.cfg).2 = [])
    (h3 : enumeratedAvdNames env (findAndroidTools env.sys env.cfg).1 ≠ []) :
    getRunningEmulators env = [] ∧
    (getAvailableAvds env).2 = none ∧
    ∀ a ∈ (getAvailableAvds env).1, a.status = .stopped := by
  have hrun : getRunningEmulators env = [] := by
    simp [getRunningEmulators, h1]
  refine ⟨hrun, getAvailableAvds_snd_none env h2 h3, ?_⟩
  intro a ha
  rw [getAvailableAvds_fst env h2] at ha
  rcases List.mem_map.1 ha with ⟨n, hn, rfl⟩
  show avdStatus ((getRunningEmulators env).map Prod.fst) n = .stopped
  rw [hrun]
  rfl

theorem c6_adb_failure_witness :
    getRunningEmulators envC6 = [] ∧
    (getAvailableAvds envC6).2 = none ∧
    ∀ a ∈ (getAvailableAvds envC6).1, a.status = .stopped :=
  c6_adb_failure envC6 (by decide) (by decide) (by decide)

/-- C7 counterexample: on win32, with no locator error and the resolved
emulator being the configured override, the spawned command invokes
emulator.exe under the configured SDK path and never mentions the resolved
emulator executable — refuting the claim that the spawned command invokes
the ToolLocator-resolved emulator on every platform. -/
theorem c7_counterexample :
    (findAndroidTools sysC7 cfgC7).2 = [] ∧
    (findAndroidTools sysC7 cfgC7).1.emulator = ("D:\\custom\\emu.exe").toList ∧
    isSpawn (launchAvd sysC7 cfgC7 (("Pixel").toList)) = true ∧
    cmdMentions (launchAvd sysC7 cfgC7 (("Pixel").toList))
      ((findAndroidTools sysC7 cfgC7).1.emulator) = false := by
  decide

/-- C7 (amended): a locator error always aborts the launch with a message
and no spawn; with no locator error, on darwin and linux the spawned command
invokes the resolved emulator with the avd flag and the requested name,
while on win32 the launch re-reads the configured SDK path — aborting if it
is empty, and otherwise spawning emulator.exe under that SDK path (ignoring
the resolved emulator) with the avd flag and the requested name. -/
theorem c7_amended (sys : SysEnv) (cfg : ExtConfig) (avdName : Str) :
    ((findAndroidTools sys cfg).2 ≠ [] →
      launchAvd sys cfg avdName
        = .abortError (("Failed to launch emulator: ").toList ++ (findAndroidTools sys cfg).2)) ∧
    ((findAndroidTools sys cfg).2 = [] → (sys.platform = .darwin ∨ sys.platform = .linux) →
      isSpawn (launchAvd sys cfg avdName) = true ∧
      cmdMentions (launchAvd sys cfg avdName) ((findAndroidTools sys cfg).1.emulator) = true ∧
      cmdMentions (launchAvd sys cfg avdName) ((" -avd ").toList ++ avdName) = true) ∧
    ((findAndroidTools sys cfg).2 = [] → sys.platform = .win32 →
      (expandEnvVars sys cfg.sdkPath = [] →
        launchAvd sys cfg avdName
          = .abortError (("Unable to launch emulator: Android SDK path not configured. Please use \"Auto-Detect SDK\" or configure the SDK path manually.").toList)) ∧
      (expandEnvVars sys cfg.sdkPath ≠ [] →
        launchAvd sys cfg avdName = .spawnCmd (("\"").toList
          ++ pathJoinList .win32
              [expandEnvVars sys cfg.sdkPath, ("emulator").toList, ("emulator.exe").toList]
          ++ ("\" -avd \"").toList ++ avdName ++ ("\"").toList))) := by
  refine ⟨?_, ?_, ?_⟩
  · intro h
    simp only [launchAvd]
    rw [if_pos h]
  · intro h hp
    have hcond : ¬ ((findAndroidTools sys cfg).2 ≠ []) := by simp [h]
    rcases hp with hd | hl
    · have hw : ¬ (sys.platform = Platform.win32) := by rw [hd]; decide
      simp only [launchAvd]
      rw [if_neg hcond, if_neg hw, if_pos hd]
      refine ⟨rfl, ?_, ?_⟩
      · simp only [cmdMentions]
        have h1 := isSubstr_mid ((findAndroidTools sys cfg).1.emulator)
          (("osascript -e \x27tell application \"Terminal\" to do script \"\\\"").toList)
          ((("\\\" -avd ").toList) ++ avdName ++ (("\"\x27").toList))
        simpa [List.append_assoc] using h1
      · simp only [cmdMentions]
        have hC : ("\\\" -avd ").toList = ("\\\"").toList ++ ((" -avd ").toList) := by decide
        have h1 := isSubstr_mid ((" -avd ").toList ++ avdName)
          ((("osascript -e \x27tell application \"Terminal\" to do script \"\\\"").toList)
            ++ (findAndroidTools sys cfg).1.emulator ++ (("\\\"").toList))
          (("\"\x27").toList)
        simpa [hC, List.append_assoc] using h1
    · have hw : ¬ (sys.platform = Platform.win32) := by rw [hl]; decide
      have hd2 : ¬ (sys.platform = Platform.darwin) := by rw [hl]; decide
      simp only [launchAvd]
      rw [if_neg hcond, if_neg hw, if_neg hd2]
      refine ⟨rfl, ?_, ?_⟩
      · simp only [cmdMentions]
        have h1 := isSubstr_mid ((findAndroidTools sys cfg).1.emulator)
          (("x-terminal-emulator -e \"\\\"").toList)
          ((("\\\" -avd ").toList) ++ avdName ++ (("\"").toList))
        simpa [List.append_assoc] using h1
      · simp only [cmdMentions]
        have hC : ("\\\" -avd ").toList = ("\\\"").toList ++ ((" -avd ").toList) := by decide
        have h1 := isSubstr_mid ((" -avd ").toList ++ avdName)
          ((("x-terminal-emulator -e \"\\\"").toList)
            ++ (findAndroidTools sys cfg).1.emulator ++ (("\\\"").toList))
          (("\"").toList)
        simpa [hC, List.append_assoc] using h1
  · intro h hp
    have hcond : ¬ ((findAndroidTools sys cfg).2 ≠ []) := by simp [h]
    constructor
    · intro hsdk
      simp only [launchAvd]
      rw [if_neg hcond, if_pos hp, if_pos hsdk]
    · intro hsdk
      simp only [launchAvd]
      rw [if_neg hcond, if_pos hp, if_neg hsdk]

theorem c7_amended_witness :
    isSpawn (launchAvd sysC7w cfgNil (("A").toList)) = true ∧
    cmdMentions (launchAvd sysC7w cfgNil (("A").toList))
      ((findAndroidTools sysC7w cfgNil).1.emulator) = true :=
  ⟨((c7_amended sysC7w cfgNil (("A").toList)).2.1 (by decide) (Or.inl rfl)).1,
   ((c7_amended sysC7w cfgNil (("A").toList)).2.1 (by decide) (Or.inl rfl)).2.1⟩

lemma drop_len_takeWhile (p : Char → Bool) (l : Str) :
    l.drop (l.takeWhile p).length = l.dropWhile p := by
  induction l with
  | nil => rfl
  | cons c rest ih => by_cases h : p c <;> simp [List.takeWhile, List.dropWhile, h, ih]

lemma takeWhile_ne_nil_head (p : Char → Bool) (l : Str) (h : l.takeWhile p ≠ []) :
    ∃ c r, l = c :: r ∧ p c = true := by
  cases l with
  | nil => simp [List.takeWhile] at h
  | cons c r =>
    by_cases hc : p c
    · exact ⟨c, r, rfl, hc⟩
    · simp [List.takeWhile, hc] at h

lemma percent_decomp (rest : Str)
    (hname : rest.takeWhile (fun d => d ≠ '%') ≠ [])
    (hclose : (rest.drop (rest.takeWhile (fun d => d ≠ '%')).length).head? = some '%') :
    PercentTok ('%' :: rest) := by
  set nm := rest.takeWhile (fun d => d ≠ '%') with hnm
  rw [drop_len_takeWhile] at hclose
  rcases hdw : rest.dropWhile (fun d => d ≠ '%') with _ | ⟨d, t⟩
  · rw [hdw] at hclose
    cases hclose
  · rw [hdw] at hclose
    have hd : d = '%' := by
      simpa using hclose
    subst hd
    refine ⟨[], nm, t, ?_, hname, ?_⟩
    · have := List.takeWhile_append_dropWhile (fun d => d ≠ '%') rest
      rw [hdw] at this
      rw [← hnm] at this
      simp [← this]
    · intro hmem
      have := List.mem_takeWhile_imp (hnm ▸ hmem)
      simp at this

lemma percentTok_cons (c : Char) (s : Str) : PercentTok s → PercentTok (c :: s) := by
  rintro ⟨a, nm, b, rfl, h1, h2⟩
  exact ⟨c :: a, nm, b, rfl, h1, h2⟩

lemma noPercent_expWin (v : Str → Str) :
    ∀ fuel s, ¬ PercentTok s → expWinFuel v fuel s = s := by
  intro fuel
  induction fuel with
  | zero => intro s _; rfl
  | succ n ih =>
    intro s h
    cases s with
    | nil => rfl
    | cons c rest =>
      have hrest : ¬ PercentTok rest := fun hr => h (percentTok_cons c rest hr)
      by_cases hc : c = '%'
      · subst hc
        have hcond : ¬ (rest.takeWhile (fun d => d ≠ '%') ≠ [] ∧
            (rest.drop (rest.takeWhile (fun d => d ≠ '%')).length).head? = some '%') := by
          rintro ⟨h1, h2⟩
          exact h (percent_decomp rest h1 h2)
        simp only [expWinFuel, if_pos rfl]
        rw [if_neg hcond, ih rest hrest]
        simp
      · simp only [expWinFuel]
        rw [if_neg hc, ih rest hrest]

lemma dollarTok_cons (c : Char) (s : Str) : DollarTok s → DollarTok (c :: s) := by
  rintro (⟨a, nm, b, rfl, h1, h2⟩ | ⟨a, d, b, rfl, h1⟩)
  · exact Or.inl ⟨c :: a, nm, b, rfl, h1, h2⟩
  · exact Or.inr ⟨c :: a, d, b, rfl, h1⟩

lemma dollar_decomp_braced (rest : Str) (hh : rest.head? = some '\x7b')
    (hname : rest.tail.takeWhile (fun d => d ≠ '\x7d') ≠ [])
    (hclose : (rest.tail.drop (rest.tail.takeWhile (fun d => d ≠ '\x7d')).length).head?
      = some '\x7d') :
    DollarTok ('$' :: rest) := by
  rcases hres : rest with _ | ⟨b0, rest2⟩
  · rw [hres] at hh
    cases hh
  · rw [hres] at hh
    have hb : b0 = '\x7b' := by simpa using hh
    subst hb
    rw [hres] at hname hclose
    simp only [List.tail_cons] at hname hclose
    set nm := rest2.takeWhile (fun d => d ≠ '\x7d') with hnm
    rw [drop_len_takeWhile] at hclose
    rcases hdw : rest2.dropWhile (fun d => d ≠ '\x7d') with _ | ⟨d, t⟩
    · rw [hdw] at hclose
      cases hclose
    · rw [hdw] at hclose
      have hd : d = '\x7d' := by simpa using hclose
      subst hd
      refine Or.inl ⟨[], nm, t, ?_, hname, ?_⟩
      · have := List.takeWhile_append_dropWhile (fun d => d ≠ '\x7d') rest2
        rw [hdw] at this
        rw [← hnm] at this
        simp [← this]
      · intro hmem
        have := List.mem_takeWhile_imp (hnm ▸ hmem)
        simp at this

lemma dollar_decomp_bare (rest : Str) (hname : rest.takeWhile isWordChar ≠ []) :
    DollarTok ('$' :: rest) := by
  rcases takeWhile_ne_nil_head isWordChar rest hname with ⟨c, r, rfl, hc⟩
  exact Or.inr ⟨[], c, r, rfl, hc⟩

lemma noDollar_expUnix (v : Str → Str) :
    ∀ fuel s, ¬ DollarTok s → expUnixFuel v fuel s = s := by
  intro fuel
  induction fuel with
  | zero => intro s _; rfl
  | succ n ih =>
    intro s h
    cases s with
    | nil => rfl
    | cons c rest =>
      have hrest : ¬ DollarTok rest := fun hr => h (dollarTok_cons c rest hr)
      by_cases hc : c = '$'
      · subst hc
        by_cases hh : rest.head? = some '\x7b'
        · have hcond : ¬ (rest.tail.takeWhile (fun d => d ≠ '\x7d') ≠ [] ∧
              (rest.tail.drop (rest.tail.takeWhile (fun d => d ≠ '\x7d')).length).head?
                = some '\x7d') := by
            rintro ⟨h1, h2⟩
            exact h (dollar_decomp_braced rest hh h1 h2)
          simp only [expUnixFuel, if_pos rfl, if_pos hh]
          rw [if_neg hcond, ih rest hrest]
          simp
        · have hcond : ¬ (rest.takeWhile isWordChar ≠ []) := by
            intro h1
            exact h (dollar_decomp_bare rest h1)
          simp only [expUnixFuel, if_pos rfl]
          rw [if_neg hh, if_neg hcond, ih rest hrest]
          simp
      · simp only [expUnixFuel]
        rw [if_neg hc, ih rest hrest]

lemma noPercentChar (s : Str) (h : '%' ∉ s) : ¬ PercentTok s := by
  rintro ⟨a, nm, b, rfl, -, -⟩
  exact h (by simp)

lemma noDollarChar (s : Str) (h : '$' ∉ s) : ¬ DollarTok s := by
  rintro (⟨a, nm, b, rfl, -, -⟩ | ⟨a, c, b, rfl, -⟩) <;> exact h (by simp)

/-- C9: on a string with no percent token, no dollar token and no leading
tilde, expand is the identity, and is therefore idempotent there. -/
theorem c9_token_free_identity (sys : SysEnv) (s : Str)
    (h1 : ¬ PercentTok s) (h2 : ¬ DollarTok s) (h3 : s.head? ≠ some '~') :
    expandEnvVars sys s = s ∧
    expandEnvVars sys (expandEnvVars sys s) = expandEnvVars sys s := by
  have he : expandEnvVars sys s = s := by
    simp only [expandEnvVars]
    rw [noPercent_expWin _ _ _ h1, noDollar_expUnix _ _ _ h2, if_neg h3]
  refine ⟨he, ?_⟩
  rw [he]
  exact he

theorem c9_token_free_witness :
    expandEnvVars sysNil (("/plain path").toList) = ("/plain path").toList ∧
    expandEnvVars sysNil (expandEnvVars sysNil (("/plain path").toList))
      = expandEnvVars sysNil (("/plain path").toList) :=
  c9_token_free_identity sysNil (("/plain path").toList)
    (noPercentChar _ (by decide)) (noDollarChar _ (by decide)) (by decide)

lemma intercalate_cons_ne (s : Str) (x : Str) (ys : List Str) (hy : ys ≠ []) :
    List.intercalate s (x :: ys) = x ++ s ++ List.intercalate s ys := by
  rcases ys with _ | ⟨y, t⟩
  · exact absurd rfl hy
  · simp [List.intercalate, List.intersperse]

lemma intercalate_append_ne (s : Str) (xs ys : List Str) (hx : xs ≠ []) (hy : ys ≠ []) :
    List.intercalate s (xs ++ ys)
      = List.intercalate s xs ++ s ++ List.intercalate s ys := by
  induction xs with
  | nil => exact absurd rfl hx
  | cons x t ih =>
    rcases t with _ | ⟨t0, ts⟩
    · rw [List.singleton_append, intercalate_cons_ne s x ys hy]
      simp [List.intercalate, List.intersperse]
    · have hne : t0 :: ts ≠ [] := by simp
      rw [List.cons_append, intercalate_cons_ne s x ((t0 :: ts) ++ ys) (by simp),
        ih hne, intercalate_cons_ne s x (t0 :: ts) hne]
      simp [List.append_assoc]

lemma foldl_normSeg_good (ab : Bool) :
    ∀ (l : List Str), (∀ seg ∈ l, seg ≠ [] ∧ seg ≠ ['.'] ∧ seg ≠ ['.', '.']) →
    ∀ (acc : List Str), l.foldl (normSeg ab) acc = acc ++ l := by
  intro l
  induction l with
  | nil => intro _ acc; simp
  | cons seg t ih =>
    intro hall acc
    rcases hall seg (by simp) with ⟨h1, h2, h3⟩
    have hstep : normSeg ab acc seg = acc ++ [seg] := by
      unfold normSeg
      rw [if_neg (by simp [h1, h2]), if_neg h3]
    rw [List.foldl_cons, hstep, ih (fun x hx => hall x (by simp [hx]))]
    simp

lemma posixJoin_norm_home (segs : List Str) (hne : segs ≠ [])
    (hgood : ∀ seg ∈ segs, seg ≠ [] ∧ '/' ∉ seg ∧ seg ≠ ['.'] ∧ seg ≠ ['.', '.']) :
    posixJoinList ['/' :: List.intercalate ['/'] segs, ['/', 'x']]
      = ('/' :: List.intercalate ['/'] segs) ++ ['/', 'x'] := by
  set I := List.intercalate ['/'] segs with hI
  set home : Str := '/' :: I with hhome
  have hfilter : [home, ['/', 'x']].filter (fun p => !p.isEmpty) = [home, ['/', 'x']] := by
    simp [hhome]
  have hjoin : List.intercalate ['/'] [home, ['/', 'x']] = home ++ ['/'] ++ ['/', 'x'] := by
    rw [intercalate_cons_ne _ _ _ (by simp)]
    simp [List.intercalate, List.intersperse]
  set p : Str := home ++ ['/'] ++ ['/', 'x'] with hp
  have hstruct : p = List.intercalate ['/'] (([] : Str) :: (segs ++ [([] : Str), ['x']])) := by
    rw [intercalate_cons_ne _ _ _ (by simp),
      intercalate_append_ne ['/'] segs [([] : Str), ['x']] hne (by simp),
      intercalate_cons_ne _ _ _ (by simp)]
    simp [hp, hhome, hI, List.intercalate, List.intersperse, List.append_assoc]
  have hsplit : splitSlash p = ([] : Str) :: (segs ++ [([] : Str), ['x']]) := by
    rw [hstruct]
    unfold splitSlash
    refine List.splitOn_intercalate _ '/' ?_ (by simp)
    intro l hl
    rcases List.mem_cons.1 hl with rfl | hl2
    · simp
    · rcases List.mem_append.1 hl2 with hl3 | hl3
      · exact (hgood l hl3).2.1
      · rcases List.mem_cons.1 hl3 with rfl | hl4
        · simp
        · rcases List.mem_cons.1 hl4 with rfl | hl5
          · decide
          · cases hl5
  have hhead : p.head? = some '/' := by rw [hp, hhome]; rfl
  have hlast : p.getLast? = some 'x' := by
    rw [hp]
    rw [List.getLast?_append_of_ne_nil _ (by simp)]
    rfl
  have hgood3 : ∀ seg ∈ segs, seg ≠ [] ∧ seg ≠ ['.'] ∧ seg ≠ ['.', '.'] := by
    intro seg hs
    rcases hgood seg hs with ⟨a, _, c, d⟩
    exact ⟨a, c, d⟩
  have hstack : ∀ ab : Bool, (splitSlash p).foldl (normSeg ab) [] = segs ++ [['x']] := by
    intro ab
    rw [hsplit, List.foldl_cons]
    have h0 : normSeg ab [] [] = [] := by unfold normSeg; simp
    rw [h0, List.foldl_append, foldl_normSeg_good ab segs hgood3 [], List.nil_append,
      List.foldl_cons]
    have h1 : normSeg ab segs [] = segs := by unfold normSeg; simp
    rw [h1, List.foldl_cons]
    have h2 : normSeg ab segs ['x'] = segs ++ [['x']] := by
      unfold normSeg
      rw [if_neg (by simp), if_neg (by simp)]
    rw [h2]
    rfl
  have hbody : List.intercalate ['/'] (segs ++ [['x']]) = I ++ ['/'] ++ ['x'] := by
    rw [intercalate_append_ne _ _ _ hne (by simp)]
    simp [List.intercalate, List.intersperse, hI]
  have hnorm : posixNormalize p = home ++ ['/', 'x'] := by
    simp only [posixNormalize]
    rw [if_neg (by simp [hp, hhome])]
    rw [hhead, hlast, hstack, hbody]
    rw [if_neg (by simp)]
    simp [hhome, List.append_assoc]
  simp only [posixJoinList, hfilter]
  rw [if_neg (by simp [hhome]), hjoin]
  exact hnorm

/-- C8 counterexample: the tilde branch path-joins the home directory with
the remainder instead of concatenating it unchanged: with home /h,
expand of tilde-x is /h/x, not /hx — refuting the concatenate-the-remainder
description. -/
theorem c8_counterexample :
    expandEnvVars sysC8 (("~x").toList) = ("/h/x").toList ∧
    expandEnvVars sysC8 (("~x").toList) ≠ sysC8.homeDir ++ ("x").toList := by
  decide

/-- C8 (amended): expand substitutes percent tokens and then dollar tokens
with the environment value (empty when unset); when the result still begins
with a tilde, the leading tilde is resolved by path-joining the home
directory with the remainder — inserting a separator when the remainder
does not begin with one and normalizing — rather than by plain
concatenation; in particular expand of percent-VAR-percent is foo when VAR
is foo and empty when VAR is unset, and expand of tilde-slash-x equals
homeDirectory() ++ /x for a normalized absolute home directory on a posix
platform. -/
theorem c8_amended :
    (∀ sys : SysEnv, sys.getVar (("VAR").toList) = some (("foo").toList) →
      expandEnvVars sys (("%VAR%").toList) = ("foo").toList) ∧
    (∀ sys : SysEnv, sys.getVar (("VAR").toList) = none →
      expandEnvVars sys (("%VAR%").toList) = []) ∧
    (∀ (sys : SysEnv) (segs : List Str), sys.platform ≠ .win32 → segs ≠ [] →
      (∀ seg ∈ segs, seg ≠ [] ∧ '/' ∉ seg ∧ seg ≠ ['.'] ∧ seg ≠ ['.', '.']) →
      sys.homeDir = '/' :: List.intercalate ['/'] segs →
      expandEnvVars sys (("~/x").toList) = sys.homeDir ++ ("/x").toList) := by
  refine ⟨?_, ?_, ?_⟩
  · intro sys h
    simp only [expandEnvVars]
    have h1 : expWinFuel (fun name => (sys.getVar name).getD [])
        ((("%VAR%").toList).length) (("%VAR%").toList)
        = (sys.getVar (("VAR").toList)).getD [] ++ [] := rfl
    rw [h1, h]
    simp only [Option.getD_some, List.append_nil]
    rw [noDollar_expUnix _ _ _ (noDollarChar _ (by decide))]
    rw [if_neg (by decide)]
  · intro sys h
    simp only [expandEnvVars]
    have h1 : expWinFuel (fun name => (sys.getVar name).getD [])
        ((("%VAR%").toList).length) (("%VAR%").toList)
        = (sys.getVar (("VAR").toList)).getD [] ++ [] := rfl
    rw [h1, h]
    simp only [Option.getD_none, List.append_nil, List.nil_append]
    rw [noDollar_expUnix _ _ _ (noDollarChar _ (by simp))]
    rfl
  · intro sys segs hpf hne hgood hhome
    simp only [expandEnvVars]
    have h1 : expWinFuel (fun name => (sys.getVar name).getD [])
        ((("~/x").toList).length) (("~/x").toList) = ("~/x").toList := rfl
    rw [h1]
    have h2 : expUnixFuel (fun name => (sys.getVar name).getD [])
        ((("~/x").toList).length) (("~/x").toList) = ("~/x").toList := rfl
    rw [h2]
    rw [if_pos (by decide : (("~/x").toList).head? = some '~')]
    have htail : (("~/x").toList).tail = ['/', 'x'] := rfl
    rw [htail]
    have hx : ("/x").toList = ['/', 'x'] := rfl
    rw [hx]
    cases hplat : sys.platform with
    | win32 => exact absurd hplat hpf
    | darwin =>
      simp only [pathJoinList]
      rw [hhome]
      exact posixJoin_norm_home segs hne hgood
    | linux =>
      simp only [pathJoinList]
      rw [hhome]
      exact posixJoin_norm_home segs hne hgood

theorem c8_amended_witness :
    expandEnvVars sysC8 (("%VAR%").toList) = ("foo").toList ∧
    expandEnvVars sysC8 (("~/x").toList) = sysC8.homeDir ++ ("/x").toList :=
  ⟨c8_amended.1 sysC8 (by decide),
   c8_amended.2.2 sysC8 [("h").toList] (by decide) (by decide) (by decide) (by decide)⟩

/-- C10 counterexample: with ANDROID_HOME naming an existing directory and
the configuration-store update failing, detection returns the discovered
path together with success false — refuting the claim that a false result
never carries a path. -/
theorem c10_counterexample :
    autoDetectSdkPaths envC10 = (some (("/sdk").toList), false) ∧
    envC10.configUpdateOk = false := by
  decide

/-- C10 (amended): detection either returns no path with success false
(exhaustion of every candidate), or returns the discovered root with
success equal to whether persisting it into the configuration store
succeeded; so a false result carries a path exactly when a root was found
but persistence failed. -/
theorem c10_amended (env : DetectEnv) :
    autoDetectSdkPaths env = (none, false) ∨
    ∃ p, autoDetectSdkPaths env = (some p, env.configUpdateOk) := by
  have hc : ∀ p, configureSdkPath env.configUpdateOk p = (some p, env.configUpdateOk) := by
    intro p
    unfold configureSdkPath
    cases env.configUpdateOk <;> rfl
  simp only [autoDetectSdkPaths]
  split
  · exact Or.inr ⟨_, hc _⟩
  · split
    · exact Or.inr ⟨_, hc _⟩
    · split
      · exact Or.inr ⟨_, hc _⟩
      · split
        · split
          · split
            · split
              · exact Or.inr ⟨_, hc _⟩
              · exact Or.inl rfl
            · exact Or.inl rfl
          · exact Or.inl rfl
        · exact Or.inl rfl
